import Mathlib

/-!
Shallow embedding of `atactk/data.py` (atactk: ATAC-seq toolkit), together
with theorems checking the natural-language specification of the module
against this embedding.

Conventions of the embedding:
* Python lists become Lean `List`s; iteration order is preserved.
* Python `None` becomes `Option.none`; optional string fields are `Option String`.
* Python integers become `Int` (or `Nat` for SAM flag bitmasks, which the
  specification requires to be non-negative).
* A Python expression that can raise (dict lookup, `int()` / `float()`
  parsing, `next()` on an exhausted stream) becomes an `Option`-valued
  function, `none` standing for the raised error / end of stream.
-/

namespace Atactk

/-- An opaque aligned-segment record, as consumed by
`filter_aligned_segments`: only `mapping_quality` and `flag` are exposed.
The SAM `flag` is a non-negative bitmask, modelled as `Nat`. -/
structure AlignedSegment where
  mapping_quality : Int
  flag : Nat
deriving DecidableEq, Repr

/-- Embedding of `filter_aligned_segments` (data.py lines 295-300):
a list comprehension keeping segments with
`all([mapping_quality >= quality, any(flag & f == f for include), all(flag & f == 0 for exclude)])`.
The `verbose` parameter is accepted and, as in the source body, never used. -/
def filter_aligned_segments (aligned_segments : List AlignedSegment)
    (include_flags exclude_flags : List Nat) (quality : Int)
    (verbose : Bool := false) : List AlignedSegment :=
  let _ := verbose
  aligned_segments.filter fun a =>
    decide (a.mapping_quality ≥ quality) &&
    include_flags.any (fun f => a.flag &&& f == f) &&
    exclude_flags.all (fun f => a.flag &&& f == 0)

/-- The retention predicate exactly as the specification words it: quality
threshold met, some include flag matched as an exact submask, and no bit
overlap with any exclude flag. -/
def retainedSpec (include_flags exclude_flags : List Nat) (quality : Int)
    (a : AlignedSegment) : Prop :=
  a.mapping_quality ≥ quality ∧
    (∃ f ∈ include_flags, a.flag &&& f = f) ∧
    (∀ f ∈ exclude_flags, a.flag &&& f = 0)

instance (include_flags exclude_flags : List Nat) (quality : Int)
    (a : AlignedSegment) : Decidable (retainedSpec include_flags exclude_flags quality a) := by
  unfold retainedSpec; infer_instance

lemma retained_bool_eq (include_flags exclude_flags : List Nat) (quality : Int)
    (a : AlignedSegment) :
    (decide (a.mapping_quality ≥ quality) &&
      include_flags.any (fun f => a.flag &&& f == f) &&
      exclude_flags.all (fun f => a.flag &&& f == 0)) =
    decide (retainedSpec include_flags exclude_flags quality a) := by
  rw [Bool.eq_iff_iff]
  simp [retainedSpec, List.any_eq_true, List.all_eq_true, and_assoc]

/-- C1: `filter_aligned_segments` is exactly the order-preserving filter of
the input by the specification's retention predicate (quality threshold,
exact-submask include match, zero-overlap exclude), and its output is a
sublist of the input (records are passed through, not copied or mutated). -/
theorem C1_filter_is_spec_filter (aligned_segments : List AlignedSegment)
    (include_flags exclude_flags : List Nat) (quality : Int) (verbose : Bool) :
    filter_aligned_segments aligned_segments include_flags exclude_flags quality verbose =
      aligned_segments.filter
        (fun a => decide (retainedSpec include_flags exclude_flags quality a)) ∧
    (filter_aligned_segments aligned_segments include_flags exclude_flags quality
      verbose).Sublist aligned_segments := by
  constructor
  · unfold filter_aligned_segments
    exact List.filter_congr fun a _ =>
      retained_bool_eq include_flags exclude_flags quality a
  · exact List.filter_sublist _

/-- C6: with an empty `include_flags` list, `filter_aligned_segments`
returns the empty list, whatever the segments, exclude flags, quality
threshold and verbosity. -/
theorem C6_empty_include_flags_empty_result (aligned_segments : List AlignedSegment)
    (exclude_flags : List Nat) (quality : Int) (verbose : Bool) :
    filter_aligned_segments aligned_segments [] exclude_flags quality verbose = [] := by
  unfold filter_aligned_segments
  simp

/-- C8: the `verbose` flag has no effect on the result of
`filter_aligned_segments`: any two verbosity values give identical output. -/
theorem C8_verbose_no_effect (aligned_segments : List AlignedSegment)
    (include_flags exclude_flags : List Nat) (quality : Int) (v1 v2 : Bool) :
    filter_aligned_segments aligned_segments include_flags exclude_flags quality v1 =
      filter_aligned_segments aligned_segments include_flags exclude_flags quality v2 := rfl

/-- Embedding of the `NUCLEOTIDE_COMPLEMENTS` dict (data.py lines 21-32) as
a lookup function; `none` models a `KeyError` on a base outside the dict. -/
def NUCLEOTIDE_COMPLEMENTS : Char → Option Char
  | 'A' => some 'T'
  | 'C' => some 'G'
  | 'G' => some 'C'
  | 'N' => some 'N'
  | 'T' => some 'A'
  | 'a' => some 't'
  | 'c' => some 'g'
  | 'g' => some 'c'
  | 'n' => some 'n'
  | 't' => some 'a'
  | _ => none

/-- The ten-character alphabet the dict covers. -/
def NUCLEOTIDE_ALPHABET : List Char :=
  ['A', 'C', 'G', 'N', 'T', 'a', 'c', 'g', 'n', 't']

/-- Embedding of `complement` (data.py line 147):
`''.join(NUCLEOTIDE_COMPLEMENTS[base] for base in seq)`; the result is
`none` when some base raises a `KeyError`. -/
def complement (seq : String) : Option String :=
  (seq.data.mapM NUCLEOTIDE_COMPLEMENTS).map String.mk

/-- Embedding of `reverse_complement` (data.py line 168):
`complement(reversed(seq))`. -/
def reverse_complement (seq : String) : Option String :=
  complement (String.mk seq.data.reverse)

/-- Total per-character complement, agreeing with the dict on its domain;
used only to state results of the `Option`-valued functions. -/
def complChar (c : Char) : Char :=
  (NUCLEOTIDE_COMPLEMENTS c).getD c

lemma nucleotide_lookup_isSome_iff (c : Char) :
    (NUCLEOTIDE_COMPLEMENTS c).isSome = true ↔ c ∈ NUCLEOTIDE_ALPHABET := by
  unfold NUCLEOTIDE_COMPLEMENTS
  split <;> simp_all [NUCLEOTIDE_ALPHABET]

lemma complChar_of_lookup (c : Char) (h : c ∈ NUCLEOTIDE_ALPHABET) :
    NUCLEOTIDE_COMPLEMENTS c = some (complChar c) := by
  fin_cases h <;> rfl

lemma complChar_mem (c : Char) (h : c ∈ NUCLEOTIDE_ALPHABET) :
    complChar c ∈ NUCLEOTIDE_ALPHABET := by
  fin_cases h <;> decide

lemma complChar_involutive (c : Char) (h : c ∈ NUCLEOTIDE_ALPHABET) :
    complChar (complChar c) = c := by
  fin_cases h <;> decide

lemma mapM_lookup_eq_some (l : List Char) (h : ∀ c ∈ l, c ∈ NUCLEOTIDE_ALPHABET) :
    l.mapM NUCLEOTIDE_COMPLEMENTS = some (l.map complChar) := by
  induction l with
  | nil => rfl
  | cons c t ih =>
    have hc : c ∈ NUCLEOTIDE_ALPHABET := h c (List.mem_cons_self c t)
    have ht := ih fun x hx => h x (List.mem_cons_of_mem c hx)
    rw [List.mapM_cons, complChar_of_lookup c hc, ht]
    rfl

lemma mapM_lookup_eq_none (l : List Char) (c : Char) (hc : c ∈ l)
    (hbad : c ∉ NUCLEOTIDE_ALPHABET) :
    l.mapM NUCLEOTIDE_COMPLEMENTS = none := by
  induction l with
  | nil => cases hc
  | cons a t ih =>
    rw [List.mapM_cons]
    rcases List.mem_cons.mp hc with h | h
    · subst h
      have hnone : NUCLEOTIDE_COMPLEMENTS c = none := by
        rcases hn : NUCLEOTIDE_COMPLEMENTS c with _ | v
        · rfl
        · exact absurd ((nucleotide_lookup_isSome_iff c).mp (by rw [hn]; rfl)) hbad
      simp [hnone]
    · simp only [ih h]
      cases NUCLEOTIDE_COMPLEMENTS a <;> rfl

lemma mapM_lookup_isSome_iff (l : List Char) :
    (l.mapM NUCLEOTIDE_COMPLEMENTS).isSome = true ↔
      ∀ c ∈ l, c ∈ NUCLEOTIDE_ALPHABET := by
  constructor
  · intro h
    by_contra hall
    push_neg at hall
    obtain ⟨c, hc, hbad⟩ := hall
    rw [mapM_lookup_eq_none l c hc hbad] at h
    simp at h
  · intro h
    rw [mapM_lookup_eq_some l h]
    rfl

lemma complement_eq_map (seq : String) (h : ∀ c ∈ seq.data, c ∈ NUCLEOTIDE_ALPHABET) :
    complement seq = some (String.mk (seq.data.map complChar)) := by
  unfold complement
  rw [mapM_lookup_eq_some seq.data h]
  rfl

lemma complement_isSome_iff (seq : String) :
    (complement seq).isSome = true ↔ ∀ c ∈ seq.data, c ∈ NUCLEOTIDE_ALPHABET := by
  unfold complement
  rw [← mapM_lookup_isSome_iff seq.data]
  rcases hm : seq.data.mapM NUCLEOTIDE_COMPLEMENTS with _ | w <;> simp [hm]

/-- C7: for every sequence over the alphabet `{A,C,G,T,N}` in either case,
`reverse_complement (reverse_complement seq)` succeeds and returns `seq`. -/
theorem C7_reverse_complement_involution (seq : String)
    (h : ∀ c ∈ seq.data, c ∈ NUCLEOTIDE_ALPHABET) :
    (reverse_complement seq).bind reverse_complement = some seq := by
  have h1 : ∀ c ∈ seq.data.reverse, c ∈ NUCLEOTIDE_ALPHABET := fun c hc =>
    h c (List.mem_reverse.mp hc)
  have e1 : reverse_complement seq =
      some (String.mk (seq.data.reverse.map complChar)) := by
    unfold reverse_complement
    exact complement_eq_map _ h1
  have h2 : ∀ c ∈ seq.data.reverse.map complChar, c ∈ NUCLEOTIDE_ALPHABET := by
    intro c hc
    obtain ⟨x, hx, rfl⟩ := List.mem_map.mp hc
    exact complChar_mem x (h1 x hx)
  have e2 : reverse_complement (String.mk (seq.data.reverse.map complChar)) =
      some (String.mk (((seq.data.reverse.map complChar).reverse).map complChar)) := by
    unfold reverse_complement
    exact complement_eq_map _ (fun c hc => h2 c (List.mem_reverse.mp hc))
  have key : ((seq.data.reverse.map complChar).reverse).map complChar = seq.data := by
    rw [← List.map_reverse, List.reverse_reverse, List.map_map]
    have hcongr : seq.data.map (complChar ∘ complChar) = seq.data.map id :=
      List.map_congr_left fun c hc => by
        simp [complChar_involutive c (h c hc)]
    rw [hcongr, List.map_id]
  rw [e1, Option.some_bind, e2, key]

/-- C7 witness: the involution at the concrete sequence `AcGtN`. -/
theorem C7_witness :
    (reverse_complement "AcGtN").bind reverse_complement = some "AcGtN" :=
  C7_reverse_complement_involution "AcGtN" (by decide)

/-- C9: `complement` fails (models a `KeyError`) exactly when some character
lies outside the ten-character alphabet, succeeds with the character-wise
mapped string on inputs drawn entirely from the alphabet, and
`reverse_complement` fails under exactly the same condition. -/
theorem C9_complement_key_error (seq : String) :
    (complement seq = none ↔ ∃ c ∈ seq.data, c ∉ NUCLEOTIDE_ALPHABET) ∧
    ((∀ c ∈ seq.data, c ∈ NUCLEOTIDE_ALPHABET) →
      complement seq = some (String.mk (seq.data.map complChar))) ∧
    (reverse_complement seq = none ↔ ∃ c ∈ seq.data, c ∉ NUCLEOTIDE_ALPHABET) := by
  have main : ∀ s : String,
      complement s = none ↔ ∃ c ∈ s.data, c ∉ NUCLEOTIDE_ALPHABET := by
    intro s
    constructor
    · intro hnone
      by_contra hex
      push_neg at hex
      have := (complement_isSome_iff s).mpr hex
      rw [hnone] at this
      simp at this
    · rintro ⟨c, hc, hbad⟩
      unfold complement
      rw [mapM_lookup_eq_none s.data c hc hbad]
      rfl
  refine ⟨main seq, complement_eq_map seq, ?_⟩
  unfold reverse_complement
  rw [main (String.mk seq.data.reverse)]
  constructor
  · rintro ⟨c, hc, hbad⟩
    exact ⟨c, List.mem_reverse.mp hc, hbad⟩
  · rintro ⟨c, hc, hbad⟩
    exact ⟨c, List.mem_reverse.mpr hc, hbad⟩

/-- C9 witness: `complement` fails on `AXC`, succeeds character-wise on
`acgtn`, and `reverse_complement` fails on `AXC` as well. -/
theorem C9_witness :
    complement "AXC" = none ∧ complement "acgtn" = some "tgcan" ∧
      reverse_complement "AXC" = none := by
  refine ⟨?_, ?_, ?_⟩
  · exact (C9_complement_key_error "AXC").1.mpr ⟨'X', by decide, by decide⟩
  · exact ((C9_complement_key_error "acgtn").2.1 (by decide)).trans (by decide)
  · exact (C9_complement_key_error "AXC").2.2.mpr ⟨'X', by decide, by decide⟩

/-- Embedding of the `ExtendedFeature` object state after `__init__`
(data.py lines 83-109). Required BED coordinates are `Int` after `int()`
parsing; `score` is the exact value of the parsed `float()` as a rational;
optional BED fields are stored unparsed as `Option String`. -/
structure ExtendedFeature where
  reference : Option String
  feature_start : Int
  feature_end : Int
  name : Option String
  score : ℚ
  strand : Option String
  thick_start : Option String
  thick_end : Option String
  color : Option String
  block_count : Option String
  block_sizes : Option String
  block_starts : Option String
  extension : Int
  reverse_feature_shift : Int
  is_reverse : Bool
  region_start : Int
  region_end : Int
deriving DecidableEq, Repr

/-- Embedding of the body of `ExtendedFeature.__init__` once the numeric
arguments are parsed: region bounds are `start/end ± extension`, then both
are shifted upstream by `reverse_feature_shift` when the feature is on the
reverse strand and the shift is positive (data.py lines 102-109). The
derived fields are computed here once; the structure is immutable. -/
def ExtendedFeature.init (reference : Option String) (start end_ : Int)
    (name : Option String) (score : ℚ) (strand : Option String)
    (thick_start thick_end : Option String) (color : Option String)
    (block_count block_sizes block_starts : Option String)
    (extension : Int) (reverse_feature_shift : Int) : ExtendedFeature :=
  let region_start := start - extension
  let region_end := end_ + extension
  if strand = some "-" ∧ 0 < reverse_feature_shift then
    { reference := reference, feature_start := start, feature_end := end_,
      name := name, score := score, strand := strand,
      thick_start := thick_start, thick_end := thick_end, color := color,
      block_count := block_count, block_sizes := block_sizes,
      block_starts := block_starts, extension := extension,
      reverse_feature_shift := reverse_feature_shift,
      is_reverse := strand == some "-",
      region_start := region_start - reverse_feature_shift,
      region_end := region_end - reverse_feature_shift }
  else
    { reference := reference, feature_start := start, feature_end := end_,
      name := name, score := score, strand := strand,
      thick_start := thick_start, thick_end := thick_end, color := color,
      block_count := block_count, block_sizes := block_sizes,
      block_starts := block_starts, extension := extension,
      reverse_feature_shift := reverse_feature_shift,
      is_reverse := strand == some "-",
      region_start := region_start,
      region_end := region_end }

/-- Value of a digit string. -/
def digitsToNat (l : List Char) : Nat :=
  l.foldl (fun acc c => acc * 10 + (c.toNat - Char.toNat '0')) 0

/-- Python's default whitespace for `str.strip()` (ASCII part). -/
def pyIsSpace (c : Char) : Bool :=
  c = ' ' || c = '\t' || c = '\n' || c = '\r' || c = '\x0b' || c = '\x0c'

/-- `str.strip()` on the character list: drop whitespace from both ends. -/
def pyStripChars (l : List Char) : List Char :=
  ((l.dropWhile pyIsSpace).reverse.dropWhile pyIsSpace).reverse

/-- Model of Python `str.strip()`. -/
def pyStrip (s : String) : String :=
  String.mk (pyStripChars s.data)

/-- Model of Python `int(s)` on a string: surrounding whitespace stripped,
optional sign, one or more ASCII digits; `none` models the raised
`ValueError`. (Underscore digit separators and non-ASCII digits are outside
the model.) -/
def pyParseInt (s : String) : Option Int :=
  let l := pyStripChars s.data
  let signSplit : Bool × List Char :=
    match l with
    | '-' :: r => (true, r)
    | '+' :: r => (false, r)
    | _ => (false, l)
  let ds := signSplit.2
  if !ds.isEmpty && ds.all Char.isDigit then
    some (if signSplit.1 then -(digitsToNat ds : Int) else (digitsToNat ds : Int))
  else none

/-- Model of Python `float(s)` on a string: stripped, optional sign,
`digits[.digits]` or `.digits`, optional exponent; the result is the exact
decimal value as a rational. (`inf`/`nan` literals and binary rounding are
outside the model; the claims checked here do not depend on them.) -/
def pyParseFloat (s : String) : Option ℚ :=
  let l := pyStripChars s.data
  let signSplit : Bool × List Char :=
    match l with
    | '-' :: r => (true, r)
    | '+' :: r => (false, r)
    | _ => (false, l)
  let neg := signSplit.1
  let ipSplit := signSplit.2.span Char.isDigit
  let ip := ipSplit.1
  let dotSplit : Bool × List Char :=
    match ipSplit.2 with
    | '.' :: r => (true, r)
    | _ => (false, ipSplit.2)
  let fpSplit := if dotSplit.1 then dotSplit.2.span Char.isDigit else ([], dotSplit.2)
  let fp := fpSplit.1
  if ip.isEmpty && fp.isEmpty then none
  else
    let mant : ℚ := (digitsToNat (ip ++ fp) : ℚ) / ((10 : ℚ) ^ fp.length)
    let mantSigned : ℚ := if neg then -mant else mant
    match fpSplit.2 with
    | [] => some mantSigned
    | e :: r =>
      if e = 'e' ∨ e = 'E' then
        let eSignSplit : Bool × List Char :=
          match r with
          | '-' :: rr => (true, rr)
          | '+' :: rr => (false, rr)
          | _ => (false, r)
        let edSplit := eSignSplit.2.span Char.isDigit
        if edSplit.1.isEmpty || !edSplit.2.isEmpty then none
        else
          let ev : Int :=
            if eSignSplit.1 then -(digitsToNat edSplit.1 : Int)
            else (digitsToNat edSplit.1 : Int)
          some (mantSigned * (10 : ℚ) ^ ev)
      else none

/-- Embedding of `ExtendedFeature.__init__` as called with raw string values
for `start`, `end` and `score` (the `read_features` path): the `int()` and
`float()` conversions may raise, modelled by `none`; nothing else is
validated. -/
def mkExtendedFeature (reference : Option String) (start end_ score : String)
    (name strand thick_start thick_end color block_count block_sizes
      block_starts : Option String)
    (extension reverse_feature_shift : Int) : Option ExtendedFeature :=
  match pyParseInt start, pyParseInt end_, pyParseFloat score with
  | some sv, some ev, some scv =>
    some (ExtendedFeature.init reference sv ev name scv strand thick_start
      thick_end color block_count block_sizes block_starts extension
      reverse_feature_shift)
  | _, _, _ => none

/-- C2: region bounds of a constructed feature. Without a reverse strand
and positive shift, `region_start = start - extension` and
`region_end = end + extension`; with `strand = "-"` and shift `s > 0`,
both bounds are additionally lowered by `s`. (The bounds are fields
computed once by the constructor; the structure has no mutation.) -/
theorem C2_region_bounds (reference : Option String) (start end_ : Int)
    (name : Option String) (score : ℚ) (strand : Option String)
    (thick_start thick_end color block_count block_sizes
      block_starts : Option String)
    (extension reverse_feature_shift : Int) :
    (¬(strand = some "-" ∧ 0 < reverse_feature_shift) →
      (ExtendedFeature.init reference start end_ name score strand thick_start
        thick_end color block_count block_sizes block_starts extension
        reverse_feature_shift).region_start = start - extension ∧
      (ExtendedFeature.init reference start end_ name score strand thick_start
        thick_end color block_count block_sizes block_starts extension
        reverse_feature_shift).region_end = end_ + extension) ∧
    ((strand = some "-" ∧ 0 < reverse_feature_shift) →
      (ExtendedFeature.init reference start end_ name score strand thick_start
        thick_end color block_count block_sizes block_starts extension
        reverse_feature_shift).region_start =
          start - extension - reverse_feature_shift ∧
      (ExtendedFeature.init reference start end_ name score strand thick_start
        thick_end color block_count block_sizes block_starts extension
        reverse_feature_shift).region_end =
          end_ + extension - reverse_feature_shift) := by
  refine ⟨fun h => ?_, fun h => ?_⟩ <;> simp [ExtendedFeature.init, h]

/-- C2 witness: concrete forward-strand and shifted reverse-strand
features. -/
theorem C2_witness :
    ((ExtendedFeature.init (some "chr1") 1000 2000 none 0 (some "+") none none
        none none none none 100 0).region_start = 1000 - 100 ∧
     (ExtendedFeature.init (some "chr1") 1000 2000 none 0 (some "+") none none
        none none none none 100 0).region_end = 2000 + 100) ∧
    ((ExtendedFeature.init (some "chr1") 1000 2000 none 0 (some "-") none none
        none none none none 100 5).region_start = 1000 - 100 - 5 ∧
     (ExtendedFeature.init (some "chr1") 1000 2000 none 0 (some "-") none none
        none none none none 100 5).region_end = 2000 + 100 - 5) :=
  ⟨(C2_region_bounds (some "chr1") 1000 2000 none 0 (some "+") none none none
      none none none 100 0).1 (by decide),
   (C2_region_bounds (some "chr1") 1000 2000 none 0 (some "-") none none none
      none none none 100 5).2 (by decide)⟩

/-- C10: for every constructed feature, whatever the strand and shift, the
extended region's width exceeds the feature's width by twice the
extension: `region_end - region_start = (end - start) + 2 * extension`. -/
theorem C10_region_width (reference : Option String) (start end_ : Int)
    (name : Option String) (score : ℚ) (strand : Option String)
    (thick_start thick_end color block_count block_sizes
      block_starts : Option String)
    (extension reverse_feature_shift : Int) :
    (ExtendedFeature.init reference start end_ name score strand thick_start
      thick_end color block_count block_sizes block_starts extension
      reverse_feature_shift).region_end -
    (ExtendedFeature.init reference start end_ name score strand thick_start
      thick_end color block_count block_sizes block_starts extension
      reverse_feature_shift).region_start = (end_ - start) + 2 * extension := by
  unfold ExtendedFeature.init
  split_ifs <;> simp <;> ring

/-- C4: constructing a feature from raw string fields fails exactly when
`start` or `end` does not parse as an integer or `score` does not parse as
a float; there is no further validation, so out-of-order coordinates
(`end < start`) and negative coordinates are accepted silently. -/
theorem C4_construction_errors :
    (∀ (reference : Option String) (start end_ score : String)
        (name strand thick_start thick_end color block_count block_sizes
          block_starts : Option String)
        (extension reverse_feature_shift : Int),
      (mkExtendedFeature reference start end_ score name strand thick_start
          thick_end color block_count block_sizes block_starts extension
          reverse_feature_shift).isSome = true ↔
        ((pyParseInt start).isSome = true ∧ (pyParseInt end_).isSome = true ∧
          (pyParseFloat score).isSome = true)) ∧
    (mkExtendedFeature (some "chr1") "5" "3" "0" none none none none none
      none none none 100 0).isSome = true ∧
    (mkExtendedFeature (some "chr1") "-10" "-5" "0" none none none none none
      none none none 100 0).isSome = true := by
  refine ⟨?_, by decide, by decide⟩
  intro reference start end_ score name strand thick_start thick_end color
    block_count block_sizes block_starts extension reverse_feature_shift
  rcases hs : pyParseInt start with _ | sv <;>
    rcases he : pyParseInt end_ with _ | ev <;>
      rcases hsc : pyParseFloat score with _ | scv <;>
        simp [mkExtendedFeature, hs, he, hsc]

/-- Decimal rendering of an integer, as Python `str` renders an `int`. -/
def pyIntStr (n : Int) : String :=
  (if n < 0 then "-" else "") ++ String.mk (Nat.toDigits 10 n.natAbs)

/-- Integer part of a non-negative rational (floor). -/
def ratIntPart (q : ℚ) : Int :=
  q.num / (q.den : Int)

/-- Decimal digits of the fractional part of a rational in `[0, 1)`,
expanded until exact (with fuel bounding the expansion). -/
def fracExpand (q : ℚ) : Nat → List Char
  | 0 => []
  | fuel + 1 =>
    if q = 0 then []
    else
      let q10 := q * 10
      let d := ratIntPart q10
      Char.ofNat (Char.toNat '0' + d.toNat) :: fracExpand (q10 - (d : ℚ)) fuel

/-- Rendering of a float value as Python `str` renders it, on the exact
decimal rationals this model produces: integral values print with a
trailing `.0`, other terminating decimals print their digits (Python's
shortest round-trip repr agrees with the exact decimal for such inputs).
Scientific-notation thresholds are outside the model. -/
def pyFloatStr (q : ℚ) : String :=
  if q.den = 1 then pyIntStr q.num ++ ".0"
  else
    let aq := |q|
    let ip := ratIntPart aq
    (if q < 0 then "-" else "") ++ pyIntStr ip ++ "." ++
      String.mk (fracExpand (aq - (ip : ℚ)) 1200)

/-- Python `str(x or '')` for an optional string attribute: `None` and the
empty string both render empty. -/
def orEmptyStr : Option String → String
  | none => ""
  | some s => s

/-- Python `str(x or '')` for an int attribute: `0` is falsy and renders
empty. -/
def orEmptyInt (n : Int) : String :=
  if n = 0 then "" else pyIntStr n

/-- Python `str(x or '')` for a float attribute: `0.0` is falsy and renders
empty. -/
def orEmptyFloat (q : ℚ) : String :=
  if q = 0 then "" else pyFloatStr q

/-- Embedding of `ExtendedFeature.__str__` (data.py lines 111-127):
`'\t'.join(str(attribute or '') for attribute in [...])` over the fourteen
fields in their fixed order. -/
def ExtendedFeature.str (f : ExtendedFeature) : String :=
  String.intercalate "\t" [
    orEmptyStr f.reference,
    orEmptyInt f.feature_start,
    orEmptyInt f.feature_end,
    orEmptyStr f.name,
    orEmptyFloat f.score,
    orEmptyStr f.strand,
    orEmptyStr f.thick_start,
    orEmptyStr f.thick_end,
    orEmptyStr f.color,
    orEmptyStr f.block_count,
    orEmptyStr f.block_sizes,
    orEmptyStr f.block_starts,
    orEmptyInt f.extension,
    orEmptyInt f.reverse_feature_shift]

/-- The serialization exactly as claim C3 words it: a field renders empty
exactly when it is absent; present numeric fields (even 0) render their
numeral. -/
def ExtendedFeature.strClaimC3 (f : ExtendedFeature) : String :=
  String.intercalate "\t" [
    orEmptyStr f.reference,
    pyIntStr f.feature_start,
    pyIntStr f.feature_end,
    orEmptyStr f.name,
    pyFloatStr f.score,
    orEmptyStr f.strand,
    orEmptyStr f.thick_start,
    orEmptyStr f.thick_end,
    orEmptyStr f.color,
    orEmptyStr f.block_count,
    orEmptyStr f.block_sizes,
    orEmptyStr f.block_starts,
    pyIntStr f.extension,
    pyIntStr f.reverse_feature_shift]

/-- The serialization per the amended claim: a field renders empty when it
is absent or when its value is falsy (a zero number or an empty string),
and as its ordinary rendering otherwise. -/
def ExtendedFeature.strAmended (f : ExtendedFeature) : String :=
  String.intercalate "\t" [
    (match f.reference with | none => "" | some s => s),
    (if f.feature_start = 0 then "" else pyIntStr f.feature_start),
    (if f.feature_end = 0 then "" else pyIntStr f.feature_end),
    (match f.name with | none => "" | some s => s),
    (if f.score = 0 then "" else pyFloatStr f.score),
    (match f.strand with | none => "" | some s => s),
    (match f.thick_start with | none => "" | some s => s),
    (match f.thick_end with | none => "" | some s => s),
    (match f.color with | none => "" | some s => s),
    (match f.block_count with | none => "" | some s => s),
    (match f.block_sizes with | none => "" | some s => s),
    (match f.block_starts with | none => "" | some s => s),
    (if f.extension = 0 then "" else pyIntStr f.extension),
    (if f.reverse_feature_shift = 0 then "" else pyIntStr f.reverse_feature_shift)]

/-- A default-style feature whose start coordinate and score are 0. -/
def featureZeroScore : ExtendedFeature :=
  ExtendedFeature.init (some "chr1") 0 10 none 0 none none none
    (some "0,0,0") none none none 100 0

/-- C3 counterexample: on a feature with `feature_start = 0` and
`score = 0`, the code's serialization renders those present numeric fields
as empty strings, not as their numerals as the claim states. -/
theorem C3_counterexample :
    featureZeroScore.str ≠ featureZeroScore.strClaimC3 := by decide

/-- C3 (amended): the serialization is the tab-join of the fourteen fields
in their fixed order, a field rendering empty when absent or when its value
is falsy (zero number or empty string), and ordinarily otherwise. -/
theorem C3_amended_serialization (f : ExtendedFeature) :
    f.str = f.strAmended := by
  unfold ExtendedFeature.str ExtendedFeature.strAmended
    orEmptyStr orEmptyInt orEmptyFloat
  rfl

/-- One FASTQ record as read by the body of `make_fastq_pair_reader`
(data.py lines 329-334): four consecutive `next()` calls, each line
stripped; `none` models the end-of-stream condition raised when fewer than
four lines remain. Returns the record and the rest of the stream. -/
def readRecord (lines : List String) : Option (List String × List String) :=
  match lines with
  | a :: b :: c :: d :: rest =>
    some ([pyStrip a, pyStrip b, pyStrip c, pyStrip d], rest)
  | _ => none

/-- One iteration of the `while True` loop of `make_fastq_pair_reader`
(data.py lines 327-341): a record from each stream in order; `none` models
end of stream surfacing from either side. -/
def readPair (st : List String × List String) :
    Option ((List String × List String) × (List String × List String)) :=
  match readRecord st.1 with
  | none => none
  | some (r1, rest1) =>
    match readRecord st.2 with
    | none => none
    | some (r2, rest2) => some ((r1, r2), (rest1, rest2))

/-- The n-th pair (counting from 0) the generator yields on two line
streams; `none` models the end-of-stream condition on the (n+1)-th pull. -/
def nthPair (lines1 lines2 : List String) : Nat → Option (List String × List String)
  | 0 => (readPair (lines1, lines2)).map Prod.fst
  | n + 1 =>
    match readPair (lines1, lines2) with
    | none => none
    | some (_, (rest1, rest2)) => nthPair rest1 rest2 n

lemma readRecord_eq (lines : List String) :
    readRecord lines =
      if 4 ≤ lines.length then
        some ((lines.take 4).map pyStrip, lines.drop 4)
      else none := by
  rcases lines with _ | ⟨a, _ | ⟨b, _ | ⟨c, _ | ⟨d, t⟩⟩⟩⟩ <;> simp [readRecord]

lemma readPair_eq (l1 l2 : List String) :
    readPair (l1, l2) =
      if 4 ≤ l1.length ∧ 4 ≤ l2.length then
        some (((l1.take 4).map pyStrip, (l2.take 4).map pyStrip),
              (l1.drop 4, l2.drop 4))
      else none := by
  simp only [readPair, readRecord_eq]
  by_cases h1 : 4 ≤ l1.length <;> by_cases h2 : 4 ≤ l2.length <;>
    simp [h1, h2]

/-- C5: the paired FASTQ reader's n-th yield is defined exactly when both
streams still hold at least `4n + 4` lines, and then consists of lines
`4n .. 4n+3` of each stream, each stripped of surrounding whitespace; as
soon as either stream has fewer than four remaining lines, the pull fails
with the end-of-stream condition. The result depends only on line
positions — no identifier cross-validation and no length matching is
performed. -/
theorem C5_fastq_pair_reader (lines1 lines2 : List String) (n : Nat) :
    nthPair lines1 lines2 n =
      if 4 * n + 4 ≤ lines1.length ∧ 4 * n + 4 ≤ lines2.length then
        some (((lines1.drop (4 * n)).take 4).map pyStrip,
              ((lines2.drop (4 * n)).take 4).map pyStrip)
      else none := by
  induction n generalizing lines1 lines2 with
  | zero =>
    show (readPair (lines1, lines2)).map Prod.fst = _
    rw [readPair_eq]
    by_cases h : 4 ≤ lines1.length ∧ 4 ≤ lines2.length
    · rcases h with ⟨h1, h2⟩
      rw [if_pos ⟨h1, h2⟩, if_pos ⟨by omega, by omega⟩]
      simp
    · rw [if_neg h]
      rw [if_neg (by intro hc; exact h ⟨by omega, by omega⟩)]
      rfl
  | succ n ih =>
    show (match readPair (lines1, lines2) with
      | none => none
      | some (_, (rest1, rest2)) => nthPair rest1 rest2 n) = _
    rw [readPair_eq]
    by_cases h : 4 ≤ lines1.length ∧ 4 ≤ lines2.length
    · rw [if_pos h]
      show nthPair (lines1.drop 4) (lines2.drop 4) n = _
      rw [ih]
      have hcond : (4 * n + 4 ≤ (lines1.drop 4).length ∧
          4 * n + 4 ≤ (lines2.drop 4).length) ↔
          (4 * (n + 1) + 4 ≤ lines1.length ∧
            4 * (n + 1) + 4 ≤ lines2.length) := by
        simp only [List.length_drop]
        omega
      have hd1 : (lines1.drop 4).drop (4 * n) = lines1.drop (4 * (n + 1)) := by
        rw [List.drop_drop]
        congr 1
        ring
      have hd2 : (lines2.drop 4).drop (4 * n) = lines2.drop (4 * (n + 1)) := by
        rw [List.drop_drop]
        congr 1
        ring
      rw [hd1, hd2, if_congr hcond rfl rfl]
    · rw [if_neg h]
      rw [if_neg (by intro hc; exact h ⟨by omega, by omega⟩)]

end Atactk
